import Mathlib

/-
Verification of the JSOC export-and-retrieve orchestration engine
(`sunpy/net/jsoc_drms/jsoc.py`) and the Helioviewer file fetch
(`sunpy/net/helioviewer.py`).

The Python source is shallowly embedded below.  Conventions:

* JSON status responses are modelled by the `StatusResponse` structure whose
  fields are exactly the JSON keys the source reads (`status`, `requestid`,
  `exptime`, `wait`, `dir`, `size`, `data`, `error`) together with the HTTP
  `status_code`.  The source reads the JSON `status` value as `int(...)` in
  `check_request` and compares it against the string quote-0-quote in `get` and
  `get_request`; consistently with the wire contract (status is an integer
  protocol constant) and with the int coercion, the model represents the
  status value as an `Int` and renders both tests as a comparison with 0.
* Network calls (`self._request_status`, `self._multi_request`) are modelled
  as oracle functions passed as explicit arguments.
* Python `while` / `for` loops that mutate the list being iterated are
  modelled by fuel-indexed recursion where the fuel is the length of the
  iterated list at loop entry; since every iteration increments the loop index
  and the list never grows, that much fuel is exact (the loop guard is already
  false when it runs out).
* `list.pop` and `list[-1]` on an out-of-range index / empty list raise
  `IndexError`; fallible code returns `Except String`.
-/

namespace SunpyJsoc

/-- One element of the JSON `data` array of a ready export request: the
source reads only its `filename` field. -/
structure ManifestEntry where
  filename : String
deriving DecidableEq, Repr

/-- The fields of a JSOC status-poll response that the source reads:
HTTP `status_code` plus the JSON keys `status`, `requestid`, `exptime`,
`wait`, `dir`, `size`, `data`, `error`. -/
structure StatusResponse where
  status_code : Nat
  status : Int
  requestid : String
  exptime : String
  wait : Int
  dir : String
  size : Int
  data : List ManifestEntry
  error : String
deriving DecidableEq, Repr

/-- The classification of a polled request, as in the spec data model:
`Ready` carries the file manifest, remote directory and size, `Pending`
carries the wait hint, `Failed` carries the status code and error message. -/
inductive RequestStatus where
  | Ready (manifest : List ManifestEntry) (dir : String) (size : Int)
  | Pending (wait : Int)
  | Failed (code : Int) (error : String)
deriving DecidableEq, Repr

/-- Classification of a raw status response, following the three-way branch
on the JSON status in `JSOCClient.check_request` (`0` / `1` / anything else,
jsoc.py lines 168-181) together with the payload each branch reads: the ready
branch of `JSOCClient.get_request` (lines 305-322) reads `data`, `dir` and
`size`; the pending branch reads `wait`; the failure branch reads `status`
and `error`. -/
def classify_status (r : StatusResponse) : RequestStatus :=
  if r.status = 0 then .Ready r.data r.dir r.size
  else if r.status = 1 then .Pending r.wait
  else .Failed r.status r.error

/-- The status line printed by `JSOCClient.check_request` for one response
(jsoc.py lines 168-181). -/
def check_request_message (r : StatusResponse) : String :=
  if r.status = 0 then
    "Request " ++ r.requestid ++ " was exported at " ++ r.exptime ++
      " and is ready to download."
  else if r.status = 1 then
    "Request " ++ r.requestid ++ " was submitted " ++ toString r.wait ++
      " seconds ago, it is not ready to download."
  else
    "Request returned status: " ++ toString r.status ++ " with error: " ++
      r.error

/-- The `requestIDs` argument of `check_request` / `get_request`: either a
bare identifier string or a list of identifiers. -/
inductive ReqIds where
  | single (id : String)
  | list (ids : List String)
deriving DecidableEq, Repr

/-- The scalar-to-singleton coercion at the top of `check_request`
(jsoc.py lines 160-161) and `get_request` (lines 286-287): a bare string
(or non-iterable) is wrapped into a one-element list, a list is kept. -/
def normalize_ids : ReqIds → List String
  | .single id => [id]
  | .list ids => ids

/-- `JSOCClient.check_request` (jsoc.py lines 145-185): polls every
identifier, prints one status line per identifier and returns the list of
raw integer statuses.  `st` is the `_request_status` oracle; the returned
pair is (allstatus, printed lines). -/
def check_request (st : String → StatusResponse) (requestIDs : ReqIds) :
    List Int × List String :=
  let ids := normalize_ids requestIDs
  (ids.map fun id => (st id).status, ids.map fun id => check_request_message (st id))

/-- The readiness test of the poll loop in `JSOCClient.get` (jsoc.py line
238) and of `JSOCClient.get_request` (line 305): HTTP 200 and JSON status 0. -/
def ready_response (r : StatusResponse) : Bool :=
  r.status_code == 200 && r.status == 0

/-- One sweep of the poll loop of `JSOCClient.get` (jsoc.py lines 232-244):
`for i, request_id in enumerate(requestIDs)` over the live list, polling each
identifier and, when the poll is ready, `requestIDs.pop(i)` (so the element
that shifts into position `i` is skipped for the rest of this sweep, exactly
as in the source); any other poll outcome leaves the identifier in place (the
source sleeps there).  `fuel` is the list length at loop entry, which is
exact for this loop (see the header note). -/
def sweepAux (st : String → StatusResponse) : Nat → List String → Nat → List String
  | 0, ids, _ => ids
  | fuel + 1, ids, i =>
    if h : i < ids.length then
      if ready_response (st (ids.get ⟨i, h⟩)) then
        sweepAux st fuel (ids.eraseIdx i) (i + 1)
      else
        sweepAux st fuel ids (i + 1)
    else ids

/-- One full pass of `get`'s inner `for` loop over the outstanding list. -/
def sweep (st : String → StatusResponse) (ids : List String) : List String :=
  sweepAux st ids.length ids 0

/-- `n` iterations of `get`'s `while requestIDs:` loop (jsoc.py line 231);
`st k` is the `_request_status` oracle during sweep number `k`.  The source
loop runs until the outstanding list is empty, so it terminates within `n`
sweeps exactly when `loopIter st ids n = []`. -/
def loopIter (st : Nat → String → StatusResponse) (ids : List String) : Nat → List String
  | 0 => ids
  | n + 1 => loopIter (fun k => st (k + 1)) (sweep (st 0) ids) n

/-- Modelled from the spec: the Results aggregator (`sunpy.net.download.Results`,
used by `get_request` but not under src/).  Per spec section 4.6 it maps file keys
to their current fact: `required` is the list of registered keys, `map_` holds the
terminal facts (key to local path, exactly the dictionary that
`JSOCClient.get_request` updates for skipped files), and `done_` records that
completion was signalled. -/
structure Results where
  required : List String
  map_ : List (String × String)
  done_ : Bool
deriving DecidableEq, Repr

/-- A fresh aggregator, as built when `get_request` receives `results=None`. -/
def Results.fresh : Results := ⟨[], [], false⟩

/-- Modelled from the spec: `register(keys)` of the Results aggregator —
registering a key is idempotent (spec section 4.6).  In the source
`results.require([url])` registers the keys and returns the completion
callback handed to the downloader. -/
def Results.require (res : Results) (keys : List String) : Results :=
  { res with required := res.required ++ keys.filter fun k => !(res.required.contains k) }

/-- Modelled from the spec: `isComplete()` — true once every registered key
has reached a terminal state (has a fact recorded in `map_`). -/
def Results.isComplete (res : Results) : Bool :=
  res.required.all fun k => res.map_.any fun p => p.1 == k

/-- Modelled from the spec: `poke()` re-checks completion and, when every
registered key is terminal, marks the aggregator done. -/
def Results.poke (res : Results) : Results :=
  if res.isComplete then { res with done_ := true } else res

/-- Python `dict.update` on the aggregator's `map_` dictionary: an existing
key is overwritten in place, a new key is appended. -/
def updateAssoc (m : List (String × String)) (k v : String) : List (String × String) :=
  if m.any (fun p => p.1 == k) then
    m.map fun p => if p.1 == k then (k, v) else p
  else m ++ [(k, v)]

/-- jsoc.py line 29. -/
def BASE_DL_URL : String := "http://jsoc.stanford.edu"

/-- The process-wide default download directory read from the configuration
when no path is supplied (jsoc.py line 290). -/
def default_download_dir : String := "/root/sunpy/data"

/-- `os.path.join` for the relative filenames that occur here (a JSOC
manifest filename never starts with a slash). -/
def path_join (dir file : String) : String := dir ++ "/" ++ file

/-- `urllib.parse.urljoin` for a base URL ending in a slash and a relative
reference, the only shape `get_request` produces: it appends the reference
to the base. -/
def urljoin (base ref : String) : String := base ++ ref

/-- The observable operations `get_request` and `_get_file` perform, in
order: status polls, file-existence checks, directory creations and download
submissions.  `JSOCClient.get_request` never emits `mkdir`: the source
(jsoc.py lines 284-338) contains no directory-creation call. -/
inductive JEvent where
  | statusPoll (id : String)
  | isfileCheck (p : String)
  | mkdir (dir : String)
  | submitJob (url : String)
deriving DecidableEq, Repr

/-- The running state of `JSOCClient.get_request`: the aggregator, the `urls`
list being accumulated, the lines printed, and the emitted operations. -/
structure GetAcc where
  results : Results
  urls : List String
  prints : List String
  events : List JEvent
deriving DecidableEq, Repr

/-- The body of `for ar in u.json()['data']` in `JSOCClient.get_request`
(jsoc.py lines 306-318): check whether the file already exists at the
destination; if overwrite was requested or it does not, append the absolute
URL (download directory joined with the filename) to `urls`; otherwise print
a skip message and record the existing path in the aggregator's map. -/
def process_entry (fs : String → Bool) (path : String) (overwrite : Bool)
    (dir : String) (acc : GetAcc) (ar : ManifestEntry) : GetAcc :=
  let dest := path_join path ar.filename
  let acc := { acc with events := acc.events ++ [JEvent.isfileCheck dest] }
  if overwrite || !(fs dest) then
    { acc with urls := acc.urls ++ [urljoin (BASE_DL_URL ++ dir ++ "/") ar.filename] }
  else
    { acc with
      prints := acc.prints ++
        ["Skipping download of file " ++ ar.filename ++
          " as it has already been downloaded"],
      results := { acc.results with
        map_ := updateAssoc acc.results.map_ ar.filename dest } }

/-- The body of `for request_id in requestIDs` in `JSOCClient.get_request`
(jsoc.py lines 302-326): poll the request; when ready, process every manifest
entry and, with progress on, print the URL count and total size; otherwise,
with progress on, print the status line (`self.check_request`, which polls
again with the same oracle). -/
def process_id (st : String → StatusResponse) (fs : String → Bool)
    (path : String) (overwrite progress : Bool) (acc : GetAcc) (rid : String) :
    GetAcc :=
  let u := st rid
  let acc := { acc with events := acc.events ++ [JEvent.statusPoll rid] }
  if ready_response u then
    let acc := u.data.foldl (process_entry fs path overwrite u.dir) acc
    if progress then
      { acc with prints := acc.prints ++
          [toString acc.urls.length ++ " URLs found for download. Totalling " ++
            toString u.size ++ "MB"] }
    else acc
  else
    if progress then
      { acc with prints := acc.prints ++ [check_request_message (st rid)] }
    else acc

/-- `JSOCClient.get_request` (jsoc.py lines 248-338).  `st` is the
`_request_status` oracle, `fs` the `os.path.isfile` oracle.  The identifier
argument is coerced to a list, the path defaults to the configured download
directory (tilde expansion is environment-dependent and modelled as the
identity), the aggregator defaults to a fresh one.  After the per-request
loop, if any URLs were collected each one is submitted to the downloader
with `results.require([url])` evaluated at submission; otherwise the
aggregator is poked into completion via `results.require([])` and
`results.poke()`. -/
def get_request (st : String → StatusResponse) (fs : String → Bool)
    (requestIDs : ReqIds) (path : Option String) (overwrite progress : Bool)
    (results0 : Option Results) : GetAcc :=
  let ids := normalize_ids requestIDs
  let p := path.getD default_download_dir
  let res := results0.getD Results.fresh
  let acc := ids.foldl (process_id st fs p overwrite progress) ⟨res, [], [], []⟩
  if acc.urls.isEmpty then
    { acc with results := (acc.results.require []).poke }
  else
    { acc with
      results := acc.urls.foldl (fun r url => r.require [url]) acc.results,
      events := acc.events ++ acc.urls.map fun url => JEvent.submitJob url }

/-- The fields of a JSOC staging (export-submission) response that
`request_data` reads: HTTP `status_code` and the JSON keys `status`,
`requestid`, `error`. -/
structure SubmitResponse where
  status_code : Nat
  status : Int
  requestid : String
  error : String
deriving DecidableEq, Repr

/-- The mutable state of `JSOCClient.request_data` (jsoc.py lines 116-138).
Python's `responses` is a list of per-block response-list objects; because
`responses.pop(i)` (line 127) removes a LIST object from the outer list while
`responses[-1].pop(i)` (line 135) mutates whichever list object is currently
last, the model keeps the list objects in a heap indexed by block number:
`heap k` is the current contents of block `k`'s response-list object and
`outer` is the `responses` list holding object indices.  `diags` collects the
`warnings.warn` diagnostics. -/
structure RDState where
  heap : List (List SubmitResponse)
  outer : List Nat
  diags : List String
deriving DecidableEq, Repr

/-- The inner loop `for i, response in enumerate(responses[-1])` of
`request_data` (jsoc.py lines 122-135), iterating over block `k`'s
response-list object (the object captured when the loop started):
* HTTP status not 200: record a warning and `responses.pop(i)` — this pops
  the i-th OBJECT from the outer list (the source pops from `responses`, not
  from `responses[-1]`), raising IndexError when `i` is out of range;
* JSON status not 2: record a warning and `responses[-1].pop(i)` — index the
  outer list's last object (IndexError on an empty outer list) and pop its
  i-th element (IndexError when out of range);
* otherwise continue.
`fuel` is the length of block `k`'s list at loop entry, exact for this loop
(the index increments every iteration and no list grows). -/
def rd_inner (k : Nat) : Nat → Nat → RDState → Except String RDState
  | 0, _, s => .ok s
  | fuel + 1, i, s =>
    let lst := s.heap.getD k []
    if h : i < lst.length then
      let r := lst.get ⟨i, h⟩
      if r.status_code ≠ 200 then
        let s1 : RDState := { s with diags := s.diags ++
          ["Query " ++ toString i ++ " retuned code " ++ toString r.status_code] }
        if i < s1.outer.length then
          rd_inner k fuel (i + 1) { s1 with outer := s1.outer.eraseIdx i }
        else .error "IndexError"
      else if r.status ≠ 2 then
        let s1 : RDState := { s with diags := s.diags ++
          ["Query " ++ toString i ++ " retuned status " ++ toString r.status ++
            " with error " ++ r.error] }
        match s1.outer.getLast? with
        | none => .error "IndexError"
        | some last =>
          let inner := s1.heap.getD last []
          if i < inner.length then
            rd_inner k fuel (i + 1)
              { s1 with heap := s1.heap.set last (inner.eraseIdx i) }
          else .error "IndexError"
      else
        rd_inner k fuel (i + 1) s
    else .ok s

/-- The per-block loop of `JSOCClient.request_data` (jsoc.py lines 119-138):
append the block's `_multi_request` responses (a fresh list object, heap
index `k`) and the object to `responses`, run the inner filtering loop, then
harvest `requestid` from every response of `responses[-1]` (IndexError when
the outer list is empty).  `multi` is the `_multi_request` oracle over opaque
query blocks; the hidden `return_resp` debug flag and the keyword-argument
validation at lines 111-114 are not modelled (no claim concerns them). -/
def request_data_go (multi : String → List SubmitResponse) :
    List String → Nat → RDState → List String →
      Except String (List String × List String)
  | [], _, s, reqIDs => .ok (reqIDs, s.diags)
  | b :: blocks, k, s, reqIDs =>
    let resp := multi b
    let s1 : RDState := { s with heap := s.heap ++ [resp], outer := s.outer ++ [k] }
    match rd_inner k resp.length 0 s1 with
    | .error e => .error e
    | .ok s2 =>
      match s2.outer.getLast? with
      | none => .error "IndexError"
      | some last =>
        request_data_go multi blocks (k + 1) s2
          (reqIDs ++ (s2.heap.getD last []).map fun r => r.requestid)

/-- `JSOCClient.request_data` (jsoc.py lines 95-143): returns the harvested
request identifiers and the recorded diagnostics, or the uncaught exception. -/
def request_data (multi : String → List SubmitResponse)
    (query_args : List String) : Except String (List String × List String) :=
  request_data_go multi query_args 0 ⟨[], [], []⟩ []

/-- A calendar timestamp at second resolution, as handed to `strftime`. -/
structure DateTime where
  year : Nat
  month : Nat
  day : Nat
  hour : Nat
  minute : Nat
  second : Nat
deriving DecidableEq, Repr

/-- Zero-padding to two digits, as `%m`, `%d`, `%H`, `%M`, `%S` do. -/
def pad2 (n : Nat) : String := if n < 10 then "0" ++ toString n else toString n

/-- Zero-padding to four digits, as `%Y` does. -/
def pad4 (n : Nat) : String :=
  if n < 10 then "000" ++ toString n
  else if n < 100 then "00" ++ toString n
  else if n < 1000 then "0" ++ toString n
  else toString n

/-- The time formatting of `_make_recordset` (jsoc.py lines 386-387):
`strftime` with the pattern year.month.day_hour:minute:second_TAI. -/
def strf_tai (t : DateTime) : String :=
  pad4 t.year ++ "." ++ pad2 t.month ++ "." ++ pad2 t.day ++ "_" ++
    pad2 t.hour ++ ":" ++ pad2 t.minute ++ ":" ++ pad2 t.second ++ "_TAI"

/-- Python `str.startswith`, on the underlying character lists. -/
def py_startswith (s pre : String) : Bool := pre.data.isPrefixOf s.data

/-- The wavelength argument of `_make_recordset`: a single astropy quantity
or a list of them, each modelled by its exact value in Angstrom
(`wave.to(u.AA).value`); the absent case (the empty-string default, falsy
in Python) is `Option.none` at the call site. -/
inductive WaveSpec where
  | single (w : ℚ)
  | list (ws : List ℚ)
deriving DecidableEq, Repr

/-- `int(np.ceil(wave.to(u.AA).value))` (jsoc.py lines 372 and 375): the
Angstrom value rounded up to the next integer — `np.ceil` is the
mathematical ceiling and the `int()` truncation is exact on its integral
result. -/
def wave_int (w : ℚ) : Int := ⌈w⌉

/-- Python `str` of a list of ints: brackets and comma-space separators. -/
def py_int_list (l : List Int) : String :=
  "[" ++ ", ".intercalate (l.map toString) ++ "]"

/-- The formatted wavelength component of the record-set selector
(jsoc.py lines 371-375): `str([...])` for a list, `[{0}]`.format for a
single value. -/
def wave_str : WaveSpec → String
  | .single w => "[" ++ toString (wave_int w) ++ "]"
  | .list ws => py_int_list (ws.map wave_int)

/-- The formatted segment component (jsoc.py lines 378-379): brace-wrapped
when nonempty. -/
def seg_str (segment : String) : String :=
  if segment != "" then "\x7b" ++ segment ++ "\x7d" else ""

/-- The formatted sampling component (jsoc.py lines 381-383). -/
def sample_str : Option Nat → String
  | none => ""
  | some s => "@" ++ toString s ++ "s"

/-- The errors of the record-lookup path: the missing-field `ValueError` of
`_lookup_records` (jsoc.py lines 406-409), the `TypeError` of
`_make_recordset` (line 369), and a failed date parse inside
`_process_time` (per spec section 7 a conversion failure is a validation
error distinct from the missing-field one). -/
inductive LookupError where
  | valueError (msg : String)
  | typeError (msg : String)
  | parseError
deriving DecidableEq, Repr

/-- `JSOCClient._make_recordset` (jsoc.py lines 363-391): builds the
record-set selector string from the series, the TAI-formatted time range,
the optional wavelength (ceiling-rounded to whole Angstrom), the segment
filter and the sampling interval.  Supplying a wavelength for a series not
starting with aia raises TypeError. -/
def _make_recordset (start_time end_time : DateTime) (series : String)
    (wavelength : Option WaveSpec) (segment : String) (sample : Option Nat) :
    Except LookupError String :=
  match wavelength with
  | some w =>
    if !(py_startswith series "aia") then
      .error (.typeError "This series does not support the wavelength attribute.")
    else
      .ok (series ++ "[" ++ strf_tai start_time ++ "-" ++ strf_tai end_time ++
        sample_str sample ++ "]" ++ wave_str w ++ seg_str segment)
  | none =>
    .ok (series ++ "[" ++ strf_tai start_time ++ "-" ++ strf_tai end_time ++
      sample_str sample ++ "]" ++ seg_str segment)

/-- The query-block mapping consumed by `_lookup_records`: each field models
the presence (`some`) or absence (`none`) of the corresponding key of the
Python `iargs` dictionary; `segment` defaults to the empty string as in
`_make_recordset`. -/
structure IArgs where
  start_time : Option String
  end_time : Option String
  series : Option String
  meta : Bool
  keys : Option (List String)
  wavelength : Option WaveSpec
  segment : String
  sample : Option Nat
deriving DecidableEq, Repr

/-- jsoc.py line 398. -/
def keywords_default : List String :=
  ["DATE", "TELESCOP", "INSTRUME", "T_OBS", "WAVELNTH"]

/-- A single-quote character, written via its code point. -/
def squote : String := String.singleton (Char.ofNat 39)

/-- Python `str` of a list of strings: brackets and quoted elements. -/
def py_str_list (l : List String) : String :=
  "[" ++ ", ".intercalate (l.map fun s => squote ++ s ++ squote) ++ "]"

/-- `str(keywords)[1:-1].replace(' ', '').replace(QUOTE, '')` (jsoc.py line
416): strip the first and last character, drop spaces and quotes. -/
def key_munge (s : String) : String :=
  ((String.mk ((s.data.drop 1).dropLast)).replace " " "").replace squote ""

/-- The payload of the archive lookup query that `_lookup_records` would
issue: the record-set selector, the munged keyword list and the
metadata-only flag (jsoc.py lines 414-422). -/
structure RSQuery where
  ds : String
  key : String
  isMeta : Bool
deriving DecidableEq, Repr

/-- `JSOCClient._lookup_records` up to the archive request it issues
(jsoc.py lines 393-422): choose the keyword set, fail with ValueError when
start time, end time or series is missing, convert both times, build the
record-set selector and return the query payload.  `parse` models
`_process_time` (jsoc.py lines 340-361): `sunpy.time.parse_time` composed
with the astropy UTC-to-TAI scale change, neither of which is under src/ —
a parse failure yields `none` (spec section 7: a conversion failure on an
unparseable date is a validation error); the integer-second arithmetic of
the scale change itself is modelled separately by `utcToTai` below. -/
def _lookup_records (parse : String → Option DateTime) (iargs : IArgs) :
    Except LookupError RSQuery :=
  let keywords : String :=
    if iargs.meta then "***ALL***"
    else py_str_list (iargs.keys.getD keywords_default)
  match iargs.start_time, iargs.end_time, iargs.series with
  | some st, some et, some series =>
    match parse st, parse et with
    | some t1, some t2 =>
      match _make_recordset t1 t2 series iargs.wavelength iargs.segment
          iargs.sample with
      | .error e => .error e
      | .ok ds => .ok ⟨ds, key_munge keywords, iargs.meta⟩
    | _, _ => .error .parseError
  | _, _, _ =>
    .error (.valueError "Both Time and Series must be specified for a JSOC Query")

/-- Modelled from the spec: the leap-second offset (TAI minus UTC, in whole
seconds) in force at a UTC instant, looked up in a table of
(UTC epoch-second, offset) entries ordered by epoch; `d0` is the offset in
force before the first entry.  The astropy scale change that
`_process_time` (jsoc.py lines 340-361) delegates to is not under src/;
spec section 7 requires the wall-clock to atomic-scale conversion to be
exact to the second. -/
def offsetAtUtc (d0 : Int) : List (Int × Int) → Int → Int
  | [], _ => d0
  | (e, o) :: rest, t => if t < e then d0 else offsetAtUtc o rest t

/-- Modelled from the spec: the same offset lookup read on the TAI scale —
each table entry takes effect at TAI instant epoch + offset. -/
def offsetAtTai (d0 : Int) : List (Int × Int) → Int → Int
  | [], _ => d0
  | (e, o) :: rest, s => if s < e + o then d0 else offsetAtTai o rest s

/-- UTC to TAI at second resolution: add the offset in force. -/
def utcToTai (table : List (Int × Int)) (d0 t : Int) : Int :=
  t + offsetAtUtc d0 table t

/-- TAI back to UTC at second resolution: subtract the offset in force. -/
def taiToUtc (table : List (Int × Int)) (d0 s : Int) : Int :=
  s - offsetAtTai d0 table s

/-- Admissibility of a leap-second table: the offsets never decrease along
the list (leap seconds only ever add to TAI minus UTC). -/
def chainOk : Int → List (Int × Int) → Bool
  | _, [] => true
  | d, (_, o) :: rest => decide (d ≤ o) && chainOk o rest

/-- `JSOCClient._process_time` at second resolution on integer epoch
seconds: the UTC-to-TAI scale change (the parse step of an already-numeric
timestamp is the identity).  Spec-modelled: astropy.time is not under
src/. -/
def _process_time (table : List (Int × Int)) (d0 t : Int) : Int :=
  utcToTai table d0 t

/-- The genuine TAI-minus-UTC table: UTC epoch seconds at which each offset
came into force, from the initial 10 s of 1972-01-01 to the 37 s of
2017-01-01. -/
def leap_table : List (Int × Int) :=
  [(63072000, 10), (78796800, 11), (94694400, 12), (126230400, 13),
   (157766400, 14), (189302400, 15), (220924800, 16), (252460800, 17),
   (283996800, 18), (315532800, 19), (362793600, 20), (394329600, 21),
   (425865600, 22), (489024000, 23), (567993600, 24), (631152000, 25),
   (662688000, 26), (709948800, 27), (741484800, 28), (773020800, 29),
   (820454400, 30), (867715200, 31), (915148800, 32), (1136073600, 33),
   (1230768000, 34), (1341100800, 35), (1435708800, 36), (1483228800, 37)]

/-- The outcome of `os.makedirs` (helioviewer.py line 325) as seen by the
caller: success, or an OSError carrying its errno. -/
inductive MkdirOutcome where
  | ok
  | oserror (errno : Int)
deriving DecidableEq, Repr

/-- `errno.EEXIST`. -/
def EEXIST : Int := 17

/-- The observable steps of `HelioviewerClient._get_file`: the directory
creation attempt, the API request, and the file transfer. -/
inductive HvEvent where
  | mkdirAttempt (dir : String)
  | request
  | transfer
deriving DecidableEq, Repr

/-- The errors `_get_file` can propagate: a re-raised OSError from
directory creation, or a transfer failure. -/
inductive HvError where
  | osError (errno : Int)
  | transferError (msg : String)
deriving DecidableEq, Repr

/-- The request-and-download tail of `_get_file` (helioviewer.py lines
330-336): `download_fileobj` (not under src/) is modelled by the `dl`
oracle giving the downloaded file path or a transfer error. -/
def hv_transfer (dl : Except String String) : Except HvError String :=
  match dl with
  | .ok fp => .ok fp
  | .error m => .error (.transferError m)

/-- `HelioviewerClient._get_file` (helioviewer.py lines 316-336): resolve
the destination directory (caller-supplied, else the configured download
directory; abspath and expanduser are environment-dependent and modelled as
the identity), attempt `os.makedirs` in a try block whose except clause
re-raises any OSError with errno other than EEXIST, then issue the request
and download the response.  Returns the result together with the ordered
event trace. -/
def _get_file (mkdir : String → MkdirOutcome) (dl : Except String String)
    (directory : Option String) : Except HvError String × List HvEvent :=
  let dir := directory.getD default_download_dir
  match mkdir dir with
  | .oserror e =>
    if e ≠ EEXIST then (.error (.osError e), [.mkdirAttempt dir])
    else (hv_transfer dl, [.mkdirAttempt dir, .request, .transfer])
  | .ok => (hv_transfer dl, [.mkdirAttempt dir, .request, .transfer])

end SunpyJsoc

open SunpyJsoc

/-- Membership in `eraseIdx` is preserved for elements different from the
erased one. -/
theorem mem_eraseIdx_of_ne {x : String} :
    ∀ (l : List String) (i : Nat) (h : i < l.length),
      x ∈ l → x ≠ l.get ⟨i, h⟩ → x ∈ l.eraseIdx i
  | a :: l, 0, _, hx, hne => by
    simp only [List.eraseIdx]
    rcases List.mem_cons.mp hx with h | h
    · exact absurd h hne
    · exact h
  | a :: l, i + 1, h, hx, hne => by
    simp only [List.eraseIdx]
    rcases List.mem_cons.mp hx with hxa | hxl
    · exact List.mem_cons.mpr (Or.inl hxa)
    · exact List.mem_cons.mpr (Or.inr (mem_eraseIdx_of_ne l i (by simpa using h) hxl hne))

/-- Everything left outstanding after a partial sweep was outstanding before. -/
theorem sweepAux_subset (st : String → StatusResponse) :
    ∀ (fuel : Nat) (ids : List String) (i : Nat) (x : String),
      x ∈ sweepAux st fuel ids i → x ∈ ids
  | 0, _, _, _, hx => hx
  | fuel + 1, ids, i, x, hx => by
    by_cases h : i < ids.length
    · simp only [sweepAux, dif_pos h] at hx
      by_cases hr : ready_response (st (ids.get ⟨i, h⟩))
      · rw [if_pos hr] at hx
        exact (ids.eraseIdx_subset i) (sweepAux_subset st fuel _ _ x hx)
      · rw [if_neg hr] at hx
        exact sweepAux_subset st fuel _ _ x hx
    · simpa only [sweepAux, dif_neg h] using hx

/-- A sweep never grows the outstanding list. -/
theorem sweepAux_length_le (st : String → StatusResponse) :
    ∀ (fuel : Nat) (ids : List String) (i : Nat),
      (sweepAux st fuel ids i).length ≤ ids.length
  | 0, _, _ => le_refl _
  | fuel + 1, ids, i => by
    by_cases h : i < ids.length
    · simp only [sweepAux, dif_pos h]
      by_cases hr : ready_response (st (ids.get ⟨i, h⟩))
      · rw [if_pos hr]
        exact le_trans (sweepAux_length_le st fuel _ _)
          (le_trans (ids.length_eraseIdx_le i) (le_refl _))
      · rw [if_neg hr]
        exact sweepAux_length_le st fuel _ _
    · simp only [sweepAux, dif_neg h]
      exact le_refl _

/-- An identifier whose poll is not ready (pending or failed) survives the
sweep: the source removes an identifier from the outstanding list only in the
ready branch. -/
theorem sweepAux_mem_of_not_ready (st : String → StatusResponse) {x : String}
    (hx : ready_response (st x) = false) :
    ∀ (fuel : Nat) (ids : List String) (i : Nat),
      x ∈ ids → x ∈ sweepAux st fuel ids i
  | 0, _, _, hmem => hmem
  | fuel + 1, ids, i, hmem => by
    by_cases h : i < ids.length
    · simp only [sweepAux, dif_pos h]
      by_cases hr : ready_response (st (ids.get ⟨i, h⟩))
      · rw [if_pos hr]
        have hne : x ≠ ids.get ⟨i, h⟩ := by
          intro he; rw [he] at hx; rw [hx] at hr; exact Bool.false_ne_true hr
        exact sweepAux_mem_of_not_ready st hx fuel _ _
          (mem_eraseIdx_of_ne ids i h hmem hne)
      · rw [if_neg hr]
        exact sweepAux_mem_of_not_ready st hx fuel _ _ hmem
    · simpa only [sweepAux, dif_neg h]

/-- When every outstanding identifier polls ready, a sweep of a nonempty
list strictly shrinks it (the head is popped in the first iteration). -/
theorem sweep_length_lt_of_all_ready (st : String → StatusResponse)
    (ids : List String) (hne : ids ≠ [])
    (hall : ∀ x ∈ ids, ready_response (st x) = true) :
    (sweep st ids).length < ids.length := by
  match ids, hne with
  | a :: tl, _ =>
    have hr : ready_response (st a) = true := hall a (List.mem_cons_self a tl)
    have h0 : 0 < tl.length + 1 := Nat.succ_pos tl.length
    have hstep : sweep st (a :: tl) = sweepAux st tl.length tl 1 := by
      simp only [sweep, List.length_cons, sweepAux, dif_pos h0]
      rw [if_pos (show ready_response (st ((a :: tl).get ⟨0, h0⟩)) = true from hr)]
      rfl
    rw [hstep]
    calc (sweepAux st tl.length tl 1).length
        ≤ tl.length := sweepAux_length_le st tl.length tl 1
      _ < (a :: tl).length := by simp

/-- The empty outstanding list is a fixed point of the loop. -/
theorem loopIter_nil (st : Nat → String → StatusResponse) :
    ∀ n, loopIter st [] n = []
  | 0 => rfl
  | n + 1 => by
    simp only [loopIter, sweep, sweepAux]
    exact loopIter_nil _ n

/-- If every identifier of the initial list polls ready at every sweep, the
loop empties the outstanding list within `length` sweeps. -/
theorem loopIter_empties_of_all_ready :
    ∀ (n : Nat) (st : Nat → String → StatusResponse) (ids : List String),
      (∀ x ∈ ids, ∀ k, ready_response (st k x) = true) →
      ids.length ≤ n → loopIter st ids n = []
  | 0, _, ids, _, hlen => by
    have : ids = [] := List.length_eq_zero.mp (Nat.le_zero.mp hlen)
    rw [this]; rfl
  | n + 1, st, ids, hall, hlen => by
    rcases eq_or_ne ids [] with h | h
    · rw [h]; exact loopIter_nil _ (n + 1)
    · have hsw : (sweep (st 0) ids).length < ids.length :=
        sweep_length_lt_of_all_ready (st 0) ids h (fun x hx => hall x hx 0)
      simp only [loopIter]
      exact loopIter_empties_of_all_ready n _ (sweep (st 0) ids)
        (fun x hx k =>
          hall x (sweepAux_subset (st 0) ids.length ids 0 x hx) (k + 1))
        (by omega)

/-- An identifier that never polls ready stays outstanding after every
number of sweeps. -/
theorem loopIter_mem_of_never_ready :
    ∀ (n : Nat) (st : Nat → String → StatusResponse) (ids : List String)
      (x : String), x ∈ ids → (∀ k, ready_response (st k x) = false) →
      x ∈ loopIter st ids n
  | 0, _, _, _, hmem, _ => hmem
  | n + 1, st, ids, x, hmem, hnever => by
    simp only [loopIter]
    exact loopIter_mem_of_never_ready n _ (sweep (st 0) ids) x
      (sweepAux_mem_of_not_ready (st 0) (hnever 0) ids.length ids 0 hmem)
      (fun k => hnever (k + 1))

/-- Claim C2: status polling is a pure classification of the raw status
response: status 0 yields `Ready` with the file manifest and size preserved
verbatim (including an empty manifest), status 1 yields `Pending` with the
wait hint preserved, and any other status yields `Failed` with the
archive-supplied code and message preserved; `check_request` returns the raw
status of every response and prints the branch matching the classification. -/
theorem C2_poll_pure_classification (r : StatusResponse) :
    (r.status = 0 → classify_status r = .Ready r.data r.dir r.size) ∧
    (r.status = 1 → classify_status r = .Pending r.wait) ∧
    (r.status ≠ 0 → r.status ≠ 1 → classify_status r = .Failed r.status r.error) ∧
    (∀ st : String → StatusResponse, ∀ id : String, st id = r →
      check_request st (.single id) = ([r.status], [check_request_message r])) := by
  refine ⟨?_, ?_, ?_, ?_⟩
  · intro h0; simp [classify_status, h0]
  · intro h1
    have : r.status ≠ 0 := by rw [h1]; decide
    simp [classify_status, this, h1]
  · intro h0 h1; simp [classify_status, h0, h1]
  · intro st id hst
    simp [check_request, normalize_ids, hst]

/-- Witness for C2: a concrete ready response with an empty manifest, a
concrete pending response, and a concrete failed response are classified with
all fields preserved. -/
theorem C2_poll_pure_classification_witness :
    classify_status ⟨200, 0, "JSOC_20120101_001", "2012-01-01", 0, "/SUM1", 10, [], ""⟩ =
      .Ready [] "/SUM1" 10 ∧
    classify_status ⟨200, 1, "JSOC_20120101_002", "", 120, "", 0, [], ""⟩ =
      .Pending 120 ∧
    classify_status ⟨200, 4, "JSOC_20120101_003", "", 0, "", 0, [], "bad series"⟩ =
      .Failed 4 "bad series" := by
  refine ⟨?_, ?_, ?_⟩
  · exact (C2_poll_pure_classification _).1 rfl
  · exact (C2_poll_pure_classification _).2.1 rfl
  · exact (C2_poll_pure_classification _).2.2.1 (by decide) (by decide)

/-- Claim C1 counterexample: a request whose poll resolves to Failed
(HTTP 200, JSON status 4) is NOT removed from the outstanding set of the
poll loop of `JSOCClient.get` — it is still outstanding after the sweep in
which it polled Failed, and after every later sweep, so the loop does not
terminate when a request resolves to Failed (nor is the failure recorded
anywhere: the source's else branch only sleeps). -/
theorem C1_counterexample :
    classify_status ⟨200, 4, "JSOC_20120101_001", "", 0, "", 0, [], "export failed"⟩ =
      .Failed 4 "export failed" ∧
    sweep (fun _ => ⟨200, 4, "JSOC_20120101_001", "", 0, "", 0, [], "export failed"⟩)
      ["JSOC_20120101_001"] = ["JSOC_20120101_001"] ∧
    loopIter (fun _ _ => ⟨200, 4, "JSOC_20120101_001", "", 0, "", 0, [], "export failed"⟩)
      ["JSOC_20120101_001"] 5 = ["JSOC_20120101_001"] :=
  ⟨rfl, rfl, rfl⟩

/-- Claim C1 (amended): in the poll loop of `JSOCClient.get`, an identifier
is removed from the outstanding set only when its poll resolves to Ready
(HTTP 200 and status 0); identifiers that poll Pending or Failed remain
outstanding and are re-polled after a sleep, so the loop fails to terminate
whenever some submitted request never polls Ready (in particular when it
always polls Failed), and the outstanding set empties within one sweep per
request when every submitted request polls Ready. -/
theorem C1_poll_loop (st : Nat → String → StatusResponse) (ids : List String) :
    (∀ x ∈ ids, (∀ k, ready_response (st k x) = false) →
      ∀ n, loopIter st ids n ≠ []) ∧
    ((∀ x ∈ ids, ∀ k, ready_response (st k x) = true) →
      loopIter st ids ids.length = []) := by
  constructor
  · intro x hx hnever n hempty
    have hmem := loopIter_mem_of_never_ready n st ids x hx hnever
    rw [hempty] at hmem
    exact List.not_mem_nil x hmem
  · intro hall
    exact loopIter_empties_of_all_ready ids.length st ids hall (le_refl _)

/-- Witness for C1: with an oracle that always answers Ready the loop over
two requests empties within two sweeps, and with an oracle that always
answers Pending a single request is still outstanding after seven sweeps. -/
theorem C1_poll_loop_witness :
    loopIter (fun _ _ => ⟨200, 0, "R", "t", 0, "/d", 1, [], ""⟩) ["R1", "R2"] 2 = [] ∧
    loopIter (fun _ _ => ⟨200, 1, "R", "t", 120, "/d", 1, [], ""⟩) ["R1"] 7 ≠ [] := by
  constructor
  · exact (C1_poll_loop (fun _ _ => ⟨200, 0, "R", "t", 0, "/d", 1, [], ""⟩)
      ["R1", "R2"]).2 (fun x _ k => rfl)
  · exact (C1_poll_loop (fun _ _ => ⟨200, 1, "R", "t", 120, "/d", 1, [], ""⟩)
      ["R1"]).1 "R1" (List.mem_singleton.mpr rfl) (fun k => rfl) 7

/-- Left cancellation for string append, via the underlying character lists. -/
theorem string_append_left_cancel {a b c : String} (h : a ++ b = a ++ c) : b = c := by
  have hd : (a ++ b).data = (a ++ c).data := by rw [h]
  simp only [String.data_append] at hd
  exact String.ext (List.append_cancel_left hd)

/-- The `urls` list after one manifest entry: extended by the entry's URL
exactly when overwrite was requested or the file is not already present. -/
theorem process_entry_urls (fs : String → Bool) (path : String) (overwrite : Bool)
    (dir : String) (acc : GetAcc) (ar : ManifestEntry) :
    (process_entry fs path overwrite dir acc ar).urls =
      if overwrite || !(fs (path_join path ar.filename)) then
        acc.urls ++ [urljoin (BASE_DL_URL ++ dir ++ "/") ar.filename]
      else acc.urls := by
  by_cases h : (overwrite || !(fs (path_join path ar.filename))) = true
  · simp [process_entry, h]
  · simp [process_entry, h]

/-- The aggregator map after one manifest entry: updated with the existing
local path exactly when the file is present and overwrite was not requested. -/
theorem process_entry_map (fs : String → Bool) (path : String) (overwrite : Bool)
    (dir : String) (acc : GetAcc) (ar : ManifestEntry) :
    (process_entry fs path overwrite dir acc ar).results.map_ =
      if overwrite || !(fs (path_join path ar.filename)) then acc.results.map_
      else updateAssoc acc.results.map_ ar.filename (path_join path ar.filename) := by
  by_cases h : (overwrite || !(fs (path_join path ar.filename))) = true
  · simp [process_entry, h]
  · simp [process_entry, h]

/-- A pair already present in the dictionary survives a `dict.update` whose
value agrees with it whenever the keys collide. -/
theorem mem_updateAssoc_keep {m : List (String × String)} {k v : String}
    (k2 v2 : String) (h : (k, v) ∈ m) (himp : k = k2 → v = v2) :
    (k, v) ∈ updateAssoc m k2 v2 := by
  unfold updateAssoc
  by_cases hany : m.any (fun p => p.1 == k2) = true
  · rw [if_pos hany]
    refine List.mem_map.mpr ⟨(k, v), h, ?_⟩
    by_cases hk : k = k2
    · simp [hk, himp hk]
    · simp [hk]
  · rw [if_neg hany]
    exact List.mem_append_left _ h

/-- `dict.update` records the new pair. -/
theorem mem_updateAssoc_self (m : List (String × String)) (k v : String) :
    (k, v) ∈ updateAssoc m k v := by
  unfold updateAssoc
  by_cases hany : m.any (fun p => p.1 == k) = true
  · rw [if_pos hany]
    obtain ⟨p, hp, hpk⟩ := List.any_eq_true.mp hany
    refine List.mem_map.mpr ⟨p, hp, ?_⟩
    simp only [beq_iff_eq] at hpk
    simp [hpk]
  · rw [if_neg hany]
    exact List.mem_append_right _ (by simp)

/-- A skipped-file fact, once recorded, survives processing further entries. -/
theorem process_entry_map_mem (fs : String → Bool) (path : String)
    (overwrite : Bool) (dir : String) (acc : GetAcc) (ar : ManifestEntry)
    (k : String) (h : (k, path_join path k) ∈ acc.results.map_) :
    (k, path_join path k) ∈ (process_entry fs path overwrite dir acc ar).results.map_ := by
  rw [process_entry_map]
  by_cases hP : (overwrite || !(fs (path_join path ar.filename))) = true
  · rw [if_pos hP]; exact h
  · rw [if_neg hP]
    exact mem_updateAssoc_keep _ _ h (fun hk => by rw [hk])

/-- A skipped-file fact survives the whole manifest fold. -/
theorem foldl_entries_map_mem (fs : String → Bool) (path : String)
    (overwrite : Bool) (dir : String) :
    ∀ (data : List ManifestEntry) (acc : GetAcc) (k : String),
      (k, path_join path k) ∈ acc.results.map_ →
      (k, path_join path k) ∈
        ((data.foldl (process_entry fs path overwrite dir) acc).results.map_)
  | [], _, _, h => h
  | ar :: data, acc, k, h => by
    rw [List.foldl_cons]
    exact foldl_entries_map_mem fs path overwrite dir data _ k
      (process_entry_map_mem fs path overwrite dir acc ar k h)

/-- The `urls` accumulated over a manifest are exactly the URLs of the
entries that pass the overwrite-or-absent test, in manifest order. -/
theorem foldl_entries_urls (fs : String → Bool) (path : String) (overwrite : Bool)
    (dir : String) :
    ∀ (data : List ManifestEntry) (acc : GetAcc),
      (data.foldl (process_entry fs path overwrite dir) acc).urls =
        acc.urls ++
          (data.filter fun ar => overwrite || !(fs (path_join path ar.filename))).map
            (fun ar => urljoin (BASE_DL_URL ++ dir ++ "/") ar.filename)
  | [], acc => by simp
  | ar :: data, acc => by
    rw [List.foldl_cons, foldl_entries_urls fs path overwrite dir data _,
      process_entry_urls]
    by_cases h : (overwrite || !(fs (path_join path ar.filename))) = true
    · simp [List.filter_cons, h]
    · simp [List.filter_cons, h]

/-- An entry whose file exists (and with overwrite off) gets its existing
path recorded by the manifest fold. -/
theorem foldl_entries_skip_recorded (fs : String → Bool) (path : String)
    (dir : String) :
    ∀ (data : List ManifestEntry) (acc : GetAcc) (ar : ManifestEntry),
      ar ∈ data → fs (path_join path ar.filename) = true →
      (ar.filename, path_join path ar.filename) ∈
        ((data.foldl (process_entry fs path false dir) acc).results.map_)
  | a :: data, acc, ar, hmem, hfs => by
    rw [List.foldl_cons]
    rcases List.mem_cons.mp hmem with rfl | htl
    · refine foldl_entries_map_mem fs path false dir data _ ar.filename ?_
      rw [process_entry_map]
      have hP : (false || !(fs (path_join path ar.filename))) = false := by
        rw [hfs]; rfl
      rw [if_neg (by rw [hP]; exact Bool.false_ne_true)]
      exact mem_updateAssoc_self _ _ _
    · exact foldl_entries_skip_recorded fs path dir data _ ar htl hfs

/-- Requiring keys does not touch the aggregator's terminal-fact map. -/
theorem require_map_eq (res : Results) (keys : List String) :
    (res.require keys).map_ = res.map_ := rfl

/-- Poking does not touch the aggregator's terminal-fact map. -/
theorem poke_map_eq (res : Results) : res.poke.map_ = res.map_ := by
  unfold Results.poke
  split <;> rfl

/-- Submitting the collected URLs to the downloader (the final loop of
`get_request`) does not touch the aggregator's terminal-fact map. -/
theorem foldl_require_map_eq :
    ∀ (urls : List String) (res : Results),
      (urls.foldl (fun r url => r.require [url]) res).map_ = res.map_
  | [], _ => rfl
  | _ :: urls, res => by
    rw [List.foldl_cons, foldl_require_map_eq urls _, require_map_eq]

/-- The final step of `get_request` changes neither `urls` nor `prints`. -/
theorem get_request_urls_eq (st : String → StatusResponse) (fs : String → Bool)
    (requestIDs : ReqIds) (path : Option String) (overwrite progress : Bool)
    (results0 : Option Results) :
    (get_request st fs requestIDs path overwrite progress results0).urls =
      ((normalize_ids requestIDs).foldl
        (process_id st fs (path.getD default_download_dir) overwrite progress)
        ⟨results0.getD Results.fresh, [], [], []⟩).urls := by
  unfold get_request
  dsimp only
  split <;> rfl

/-- The terminal-fact map of the returned aggregator is the one accumulated
by the per-request loop. -/
theorem get_request_map_eq (st : String → StatusResponse) (fs : String → Bool)
    (requestIDs : ReqIds) (path : Option String) (overwrite progress : Bool)
    (results0 : Option Results) :
    (get_request st fs requestIDs path overwrite progress results0).results.map_ =
      ((normalize_ids requestIDs).foldl
        (process_id st fs (path.getD default_download_dir) overwrite progress)
        ⟨results0.getD Results.fresh, [], [], []⟩).results.map_ := by
  unfold get_request
  dsimp only
  split
  · rw [show ∀ acc : GetAcc, ({ acc with results := (acc.results.require []).poke } : GetAcc).results.map_ = (acc.results.require []).poke.map_ from fun _ => rfl]
    rw [poke_map_eq, require_map_eq]
  · exact foldl_require_map_eq _ _

/-- With progress off, processing a ready request reduces to folding the
manifest entries (after recording the status poll). -/
theorem process_id_ready (st : String → StatusResponse) (fs : String → Bool)
    (path : String) (overwrite : Bool) (rid : String)
    (hready : ready_response (st rid) = true) (acc : GetAcc) :
    process_id st fs path overwrite false acc rid =
      (st rid).data.foldl (process_entry fs path overwrite (st rid).dir)
        { acc with events := acc.events ++ [JEvent.statusPoll rid] } := by
  simp [process_id, hready]

/-- Every URL returned in `urls` was submitted to the downloader (a
`submitJob` event exists for it). -/
theorem get_request_submit_events (st : String → StatusResponse) (fs : String → Bool)
    (requestIDs : ReqIds) (path : Option String) (overwrite progress : Bool)
    (results0 : Option Results) :
    ∀ url ∈ (get_request st fs requestIDs path overwrite progress results0).urls,
      JEvent.submitJob url ∈
        (get_request st fs requestIDs path overwrite progress results0).events := by
  unfold get_request
  dsimp only
  split
  · next hempty =>
    intro url hurl
    rw [List.isEmpty_iff] at hempty
    rw [hempty] at hurl
    exact absurd hurl (List.not_mem_nil url)
  · intro url hurl
    exact List.mem_append_right _ (List.mem_map.mpr ⟨url, hurl, rfl⟩)

/-- Claim C4: for every manifest entry of a Ready request, if a file already
exists at the computed destination path and overwrite was not requested,
no download job is ever submitted for that entry and the entry is
immediately recorded in the aggregator with the existing local path;
otherwise a job whose absolute URL joins the remote directory with the
filename is submitted: the submitted URLs are exactly those of the entries
passing the overwrite-or-absent test, in manifest order. -/
theorem C4_existing_file_skipped (st : String → StatusResponse)
    (fs : String → Bool) (rid path : String) (overwrite : Bool)
    (h200 : (st rid).status_code = 200) (h0 : (st rid).status = 0) :
    (get_request st fs (.single rid) (some path) overwrite false none).urls =
      ((st rid).data.filter fun ar => overwrite || !(fs (path_join path ar.filename))).map
        (fun ar => urljoin (BASE_DL_URL ++ (st rid).dir ++ "/") ar.filename) ∧
    (∀ ar ∈ (st rid).data,
      fs (path_join path ar.filename) = true → overwrite = false →
        (ar.filename, path_join path ar.filename) ∈
          (get_request st fs (.single rid) (some path) overwrite false none).results.map_ ∧
        urljoin (BASE_DL_URL ++ (st rid).dir ++ "/") ar.filename ∉
          (get_request st fs (.single rid) (some path) overwrite false none).urls) ∧
    (∀ url ∈ (get_request st fs (.single rid) (some path) overwrite false none).urls,
      JEvent.submitJob url ∈
        (get_request st fs (.single rid) (some path) overwrite false none).events) := by
  have hready : ready_response (st rid) = true := by
    simp [ready_response, h200, h0]
  have hacc : (normalize_ids (ReqIds.single rid)).foldl
      (process_id st fs ((some path : Option String).getD default_download_dir)
        overwrite false)
      ⟨(none : Option Results).getD Results.fresh, [], [], []⟩ =
      (st rid).data.foldl (process_entry fs path overwrite (st rid).dir)
        ⟨Results.fresh, [], [], [JEvent.statusPoll rid]⟩ := by
    simp only [normalize_ids, List.foldl_cons, List.foldl_nil, Option.getD_some,
      Option.getD_none]
    rw [process_id_ready st fs path overwrite rid hready]
    rfl
  have hurls : (get_request st fs (.single rid) (some path) overwrite false none).urls =
      ((st rid).data.filter fun ar => overwrite || !(fs (path_join path ar.filename))).map
        (fun ar => urljoin (BASE_DL_URL ++ (st rid).dir ++ "/") ar.filename) := by
    rw [get_request_urls_eq, hacc, foldl_entries_urls]
    simp
  refine ⟨hurls, ?_, get_request_submit_events st fs _ _ overwrite false none⟩
  intro ar har hfs how
  constructor
  · rw [get_request_map_eq, hacc]
    subst how
    exact foldl_entries_skip_recorded fs path (st rid).dir (st rid).data _ ar har hfs
  · rw [hurls]
    intro hmem
    obtain ⟨a2, ha2, heq⟩ := List.mem_map.mp hmem
    have hfil := (List.mem_filter.mp ha2).2
    have hf : a2.filename = ar.filename := string_append_left_cancel heq
    rw [hf, how, hfs] at hfil
    simp at hfil

/-- Witness for C4: a ready request with two files where `a.fits` already
exists on disk and overwrite is off: only `b.fits` is submitted, with the
joined absolute URL, and `a.fits` is recorded with its existing local path. -/
theorem C4_existing_file_skipped_witness :
    (get_request
        (fun _ => ⟨200, 0, "R1", "t", 0, "/SUM/D1", 5, [⟨"a.fits"⟩, ⟨"b.fits"⟩], ""⟩)
        (fun p => p == "/data/a.fits") (.single "R1") (some "/data") false false
        none).urls = ["http://jsoc.stanford.edu/SUM/D1/b.fits"] ∧
    ("a.fits", "/data/a.fits") ∈
      (get_request
        (fun _ => ⟨200, 0, "R1", "t", 0, "/SUM/D1", 5, [⟨"a.fits"⟩, ⟨"b.fits"⟩], ""⟩)
        (fun p => p == "/data/a.fits") (.single "R1") (some "/data") false false
        none).results.map_ := by
  have h := C4_existing_file_skipped
    (fun _ => ⟨200, 0, "R1", "t", 0, "/SUM/D1", 5, [⟨"a.fits"⟩, ⟨"b.fits"⟩], ""⟩)
    (fun p => p == "/data/a.fits") "R1" "/data" false rfl rfl
  refine ⟨?_, (h.2.1 ⟨"a.fits"⟩ (by simp) (by rfl) rfl).1⟩
  rw [h.1]
  rfl

/-- Claim C5: processing a Ready request whose manifest is empty leaves the
results aggregator immediately complete: no URLs are collected and the
aggregator is marked done without waiting on any callback. -/
theorem C5_empty_manifest_complete (st : String → StatusResponse)
    (fs : String → Bool) (rid : String) (path : Option String)
    (overwrite progress : Bool)
    (h200 : (st rid).status_code = 200) (h0 : (st rid).status = 0)
    (hdata : (st rid).data = []) :
    (get_request st fs (.single rid) path overwrite progress none).urls = [] ∧
    (get_request st fs (.single rid) path overwrite progress none).results.done_ = true ∧
    (get_request st fs (.single rid) path overwrite progress none).results.isComplete
      = true := by
  have hready : ready_response (st rid) = true := by
    simp [ready_response, h200, h0]
  cases progress <;>
    simp [get_request, normalize_ids, process_id, hready, hdata,
      Results.fresh, Results.require, Results.poke, Results.isComplete]

/-- Witness for C5: a concrete ready response with an empty manifest leaves
a fresh aggregator done. -/
theorem C5_empty_manifest_complete_witness :
    (get_request (fun _ => ⟨200, 0, "R1", "t", 0, "/SUM/D1", 0, [], ""⟩)
      (fun _ => false) (.single "R1") none false true none).results.done_ = true :=
  (C5_empty_manifest_complete (fun _ => ⟨200, 0, "R1", "t", 0, "/SUM/D1", 0, [], ""⟩)
    (fun _ => false) "R1" none false true rfl rfl rfl).2.1

/-- Claim C10: `check_request` and `get_request` accept either a bare
request-identifier string or a sequence of identifiers, and a call with the
bare string behaves identically to the call with the one-element list: the
scalar is coerced to a singleton before any other processing. -/
theorem C10_scalar_singleton_equiv (st : String → StatusResponse)
    (fs : String → Bool) (s : String) (path : Option String)
    (overwrite progress : Bool) (results0 : Option Results) :
    check_request st (.single s) = check_request st (.list [s]) ∧
    get_request st fs (.single s) path overwrite progress results0 =
      get_request st fs (.list [s]) path overwrite progress results0 :=
  ⟨rfl, rfl⟩

/-- Claim C3 evaluated at the failing inputs: a single query block whose one
staging response has HTTP status 404 makes `request_data` raise IndexError
(the source pops from the outer `responses` list instead of the block's own
response list, emptying it, and the id-harvest then indexes the empty list) —
the batch aborts instead of skipping the block with a diagnostic; and with
two blocks where the second fails at transport level, the failed response's
requestid is still harvested, so one diagnostic and two identifiers are
returned for two blocks (diagnostics + identifiers = 3, not 2). -/
theorem C3_submission_failure_not_contained :
    request_data (fun _ => [⟨404, 0, "JSOC_X", ""⟩]) ["block0"] =
      .error "IndexError" ∧
    request_data
      (fun b => if b == "block0" then [⟨200, 2, "JSOC_0", ""⟩]
                else [⟨404, 0, "JSOC_1", ""⟩])
      ["block0", "block1"] =
      .ok (["JSOC_0", "JSOC_1"], ["Query 0 retuned code 404"]) ∧
    request_data (fun _ => [⟨200, 2, "JSOC_2", ""⟩]) ["block0"] =
      .ok (["JSOC_2"], []) := by
  exact ⟨rfl, rfl, rfl⟩

/-- `_make_recordset` never raises the missing-field ValueError: its only
error is the wavelength TypeError. -/
theorem make_recordset_no_valueError (t1 t2 : DateTime) (series : String)
    (w : Option WaveSpec) (seg : String) (sam : Option Nat) (msg : String) :
    _make_recordset t1 t2 series w seg sam ≠ .error (.valueError msg) := by
  unfold _make_recordset
  rcases w with _ | w
  · simp
  · by_cases h : py_startswith series "aia" <;> simp [h]

/-- For an aia series the record-set selector embeds the ceiling of a single
wavelength. -/
theorem make_recordset_single_eq (t1 t2 : DateTime) (series : String)
    (hser : py_startswith series "aia" = true) (w : ℚ) (seg : String)
    (sam : Option Nat) :
    _make_recordset t1 t2 series (some (.single w)) seg sam =
      .ok (series ++ "[" ++ strf_tai t1 ++ "-" ++ strf_tai t2 ++ sample_str sam ++
        "]" ++ ("[" ++ toString (wave_int w) ++ "]") ++ seg_str seg) := by
  unfold _make_recordset
  rw [hser]
  rfl

/-- For an aia series the record-set selector embeds the element-wise
ceilings of a wavelength list. -/
theorem make_recordset_list_eq (t1 t2 : DateTime) (series : String)
    (hser : py_startswith series "aia" = true) (ws : List ℚ) (seg : String)
    (sam : Option Nat) :
    _make_recordset t1 t2 series (some (.list ws)) seg sam =
      .ok (series ++ "[" ++ strf_tai t1 ++ "-" ++ strf_tai t2 ++ sample_str sam ++
        "]" ++ py_int_list (ws.map wave_int) ++ seg_str seg) := by
  unfold _make_recordset
  rw [hser]
  rfl

/-- Claim C6: the record lookup fails with the missing-field ValueError if
and only if the block lacks a start time, an end time or a series
identifier — and then no archive request payload is produced; a block
carrying all three fields never raises this error (it may still fail with
the distinct TypeError or date-parse error). -/
theorem C6_missing_field_validation (parse : String → Option DateTime)
    (iargs : IArgs) :
    (∃ msg, _lookup_records parse iargs = .error (.valueError msg)) ↔
      (iargs.start_time = none ∨ iargs.end_time = none ∨ iargs.series = none) := by
  constructor
  · intro hex
    by_contra hcon
    push_neg at hcon
    obtain ⟨h1, h2, h3⟩ := hcon
    obtain ⟨st, hst⟩ := Option.ne_none_iff_exists'.mp h1
    obtain ⟨et, het⟩ := Option.ne_none_iff_exists'.mp h2
    obtain ⟨se, hse⟩ := Option.ne_none_iff_exists'.mp h3
    obtain ⟨msg, hmsg⟩ := hex
    unfold _lookup_records at hmsg
    rw [hst, het, hse] at hmsg
    simp only [] at hmsg
    rcases hp1 : parse st with _ | t1
    · rw [hp1] at hmsg
      simp at hmsg
    rw [hp1] at hmsg
    rcases hp2 : parse et with _ | t2
    · rw [hp2] at hmsg
      simp at hmsg
    rw [hp2] at hmsg
    simp only [] at hmsg
    rcases hmr : _make_recordset t1 t2 se iargs.wavelength iargs.segment
        iargs.sample with e | ds
    · rw [hmr] at hmsg
      simp only [Except.error.injEq] at hmsg
      exact make_recordset_no_valueError t1 t2 se iargs.wavelength iargs.segment
        iargs.sample msg (hmsg ▸ hmr)
    · rw [hmr] at hmsg
      simp at hmsg
  · intro h
    refine ⟨"Both Time and Series must be specified for a JSOC Query", ?_⟩
    unfold _lookup_records
    rcases hst : iargs.start_time with _ | st <;>
      rcases het : iargs.end_time with _ | et <;>
        rcases hse : iargs.series with _ | se <;>
          first
            | rfl
            | (rw [hst, het, hse] at h
               simp at h)

/-- Claim C7 counterexample: the wavelength 170.25 Angstrom (681/4) is
embedded in the record-set selector as 171 — the source applies `np.ceil`,
which rounds up — whereas the nearest whole Angstrom is 170; so wavelengths
are not rounded to the nearest wavelength unit. -/
theorem C7_counterexample :
    _make_recordset ⟨2012, 1, 1, 0, 0, 0⟩ ⟨2012, 1, 2, 0, 0, 0⟩ "aia.lev1"
      (some (.single (681 / 4))) "" none =
      .ok "aia.lev1[2012.01.01_00:00:00_TAI-2012.01.02_00:00:00_TAI][171]" ∧
    round (681 / 4 : ℚ) = 170 ∧ (171 : Int) ≠ 170 := by
  refine ⟨?_, ?_, by decide⟩
  · rw [make_recordset_single_eq ⟨2012, 1, 1, 0, 0, 0⟩ ⟨2012, 1, 2, 0, 0, 0⟩
      "aia.lev1" rfl (681 / 4) "" none]
    have hc : wave_int (681 / 4 : ℚ) = 171 := by
      rw [wave_int, Int.ceil_eq_iff]
      norm_num
    rw [hc]
    rfl
  · rw [round_eq, Int.floor_eq_iff]
    norm_num

/-- Claim C7 (amended): when building the record-set selector, every
supplied wavelength value (single or list) is converted to Angstrom and
rounded UP to the next whole Angstrom (the ceiling, `np.ceil`) before being
embedded in the selector string. -/
theorem C7_wavelength_ceiling (t1 t2 : DateTime) (series : String)
    (hser : py_startswith series "aia" = true) (w : ℚ) (ws : List ℚ)
    (seg : String) (sam : Option Nat) :
    _make_recordset t1 t2 series (some (.single w)) seg sam =
      .ok (series ++ "[" ++ strf_tai t1 ++ "-" ++ strf_tai t2 ++ sample_str sam ++
        "]" ++ ("[" ++ toString (⌈w⌉ : Int) ++ "]") ++ seg_str seg) ∧
    _make_recordset t1 t2 series (some (.list ws)) seg sam =
      .ok (series ++ "[" ++ strf_tai t1 ++ "-" ++ strf_tai t2 ++ sample_str sam ++
        "]" ++ py_int_list (ws.map fun x => (⌈x⌉ : Int)) ++ seg_str seg) :=
  ⟨make_recordset_single_eq t1 t2 series hser w seg sam,
   make_recordset_list_eq t1 t2 series hser ws seg sam⟩

/-- Witness for C7: a whole 304 Angstrom wavelength on an aia series is
embedded as 304, and the list [171.8, 94] is embedded as the ceilings
[172, 94]. -/
theorem C7_wavelength_ceiling_witness :
    py_startswith "aia.lev1" "aia" = true ∧
    _make_recordset ⟨2014, 1, 1, 0, 0, 0⟩ ⟨2014, 1, 2, 12, 30, 5⟩ "aia.lev1"
      (some (.single 304)) "" none =
      .ok "aia.lev1[2014.01.01_00:00:00_TAI-2014.01.02_12:30:05_TAI][304]" ∧
    _make_recordset ⟨2014, 1, 1, 0, 0, 0⟩ ⟨2014, 1, 2, 12, 30, 5⟩ "aia.lev1"
      (some (.list [859 / 5, 94])) "" none =
      .ok "aia.lev1[2014.01.01_00:00:00_TAI-2014.01.02_12:30:05_TAI][172, 94]" := by
  have h := C7_wavelength_ceiling ⟨2014, 1, 1, 0, 0, 0⟩ ⟨2014, 1, 2, 12, 30, 5⟩
    "aia.lev1" rfl 304 [859 / 5, 94] "" none
  refine ⟨rfl, ?_, ?_⟩
  · rw [h.1]
    have hc : (⌈(304 : ℚ)⌉ : Int) = 304 := by simp
    rw [hc]
    rfl
  · rw [h.2]
    have hc1 : (⌈(859 / 5 : ℚ)⌉ : Int) = 172 := by
      rw [Int.ceil_eq_iff]
      norm_num
    have hc2 : (⌈(94 : ℚ)⌉ : Int) = 94 := by simp
    simp only [List.map_cons, List.map_nil, hc1, hc2]
    rfl

/-- Along an admissible table the looked-up offset never drops below the
carried-in offset. -/
theorem offsetAtUtc_ge (d0 : Int) :
    ∀ (table : List (Int × Int)) (t : Int), chainOk d0 table = true →
      d0 ≤ offsetAtUtc d0 table t
  | [], _, _ => le_refl d0
  | (e, o) :: rest, t, hch => by
    simp only [chainOk, Bool.and_eq_true, decide_eq_true_eq] at hch
    obtain ⟨hdo, hrest⟩ := hch
    simp only [offsetAtUtc]
    by_cases ht : t < e
    · rw [if_pos ht]
    · rw [if_neg ht]
      exact le_trans hdo (offsetAtUtc_ge o rest t hrest)

/-- The offset read back on the TAI scale at the converted instant is the
offset that was added: the two lookups agree along an admissible table. -/
theorem offsetAtTai_utcToTai (d0 : Int) :
    ∀ (table : List (Int × Int)) (t : Int), chainOk d0 table = true →
      offsetAtTai d0 table (t + offsetAtUtc d0 table t) =
        offsetAtUtc d0 table t
  | [], _, _ => rfl
  | (e, o) :: rest, t, hch => by
    simp only [chainOk, Bool.and_eq_true, decide_eq_true_eq] at hch
    obtain ⟨hdo, hrest⟩ := hch
    simp only [offsetAtUtc, offsetAtTai]
    by_cases ht : t < e
    · rw [if_pos ht, if_pos (by omega)]
    · rw [if_neg ht]
      have hge : o ≤ offsetAtUtc o rest t := offsetAtUtc_ge o rest t hrest
      rw [if_neg (by omega)]
      exact offsetAtTai_utcToTai o rest t hrest

/-- Claim C9: for every second-resolution timestamp, converting wall-clock
UTC to the archive's atomic TAI scale (as `_process_time` does) and
converting the result back to UTC reproduces the original timestamp
exactly, for every admissible leap-second table. -/
theorem C9_time_roundtrip (table : List (Int × Int)) (d0 t : Int)
    (hch : chainOk d0 table = true) :
    taiToUtc table d0 (_process_time table d0 t) = t := by
  unfold taiToUtc _process_time utcToTai
  rw [offsetAtTai_utcToTai d0 table t hch]
  omega

/-- Witness for C9: the genuine leap-second table is admissible and the
round trip is exact at concrete instants on both sides of the 2012-07-01
leap second (where the offset steps from 34 to 35). -/
theorem C9_time_roundtrip_witness :
    chainOk 10 leap_table = true ∧
    taiToUtc leap_table 10 (_process_time leap_table 10 1341100799) = 1341100799 ∧
    taiToUtc leap_table 10 (_process_time leap_table 10 1341100800) = 1341100800 := by
  refine ⟨by decide, ?_, ?_⟩
  · exact C9_time_roundtrip leap_table 10 1341100799 (by decide)
  · exact C9_time_roundtrip leap_table 10 1341100800 (by decide)

/-- Both branches of a manifest-entry step record exactly the
file-existence check. -/
theorem process_entry_events (fs : String → Bool) (path : String)
    (overwrite : Bool) (dir : String) (acc : GetAcc) (ar : ManifestEntry) :
    (process_entry fs path overwrite dir acc ar).events =
      acc.events ++ [JEvent.isfileCheck (path_join path ar.filename)] := by
  by_cases h : (overwrite || !(fs (path_join path ar.filename))) = true
  · simp [process_entry, h]
  · simp [process_entry, h]

/-- The manifest fold only appends file-existence checks to the trace. -/
theorem foldl_entries_events (fs : String → Bool) (path : String)
    (overwrite : Bool) (dir : String) :
    ∀ (data : List ManifestEntry) (acc : GetAcc),
      (data.foldl (process_entry fs path overwrite dir) acc).events =
        acc.events ++ data.map fun ar => JEvent.isfileCheck (path_join path ar.filename)
  | [], acc => by simp
  | ar :: data, acc => by
    rw [List.foldl_cons, foldl_entries_events fs path overwrite dir data _,
      process_entry_events]
    simp

/-- A request step appends its status poll and, when ready, the manifest's
file-existence checks; it never records a directory creation. -/
theorem process_id_no_mkdir (st : String → StatusResponse) (fs : String → Bool)
    (path : String) (overwrite progress : Bool) (acc : GetAcc) (rid : String)
    (d : String) (hacc : JEvent.mkdir d ∉ acc.events) :
    JEvent.mkdir d ∉ (process_id st fs path overwrite progress acc rid).events := by
  by_cases h : ready_response (st rid) = true
  · cases progress <;>
      simp only [process_id, h, if_true, if_false, Bool.false_eq_true, ite_true,
        ite_false, foldl_entries_events] <;>
      · intro hmem
        rcases List.mem_append.mp hmem with hmem | hmem
        · rcases List.mem_append.mp hmem with hmem | hmem
          · exact hacc hmem
          · simp at hmem
        · obtain ⟨ar, _, har⟩ := List.mem_map.mp hmem
          exact absurd har (by simp)
  · cases progress <;>
      simp only [process_id, h, Bool.false_eq_true, ite_true, ite_false,
        if_true, if_false] <;>
      · intro hmem
        rcases List.mem_append.mp hmem with hmem | hmem
        · exact hacc hmem
        · simp at hmem

/-- The per-request loop never records a directory creation. -/
theorem foldl_ids_no_mkdir (st : String → StatusResponse) (fs : String → Bool)
    (path : String) (overwrite progress : Bool) :
    ∀ (ids : List String) (acc : GetAcc) (d : String),
      JEvent.mkdir d ∉ acc.events →
      JEvent.mkdir d ∉
        ((ids.foldl (process_id st fs path overwrite progress) acc).events)
  | [], _, _, hacc => hacc
  | rid :: ids, acc, d, hacc => by
    rw [List.foldl_cons]
    exact foldl_ids_no_mkdir st fs path overwrite progress ids _ d
      (process_id_no_mkdir st fs path overwrite progress acc rid d hacc)

/-- `JSOCClient.get_request` performs no directory creation: its trace
never contains a `mkdir` event (the source, jsoc.py lines 284-338, contains
no directory-creation call). -/
theorem get_request_no_mkdir (st : String → StatusResponse) (fs : String → Bool)
    (requestIDs : ReqIds) (path : Option String) (overwrite progress : Bool)
    (results0 : Option Results) (d : String) :
    JEvent.mkdir d ∉
      (get_request st fs requestIDs path overwrite progress results0).events := by
  unfold get_request
  dsimp only
  have hfold := foldl_ids_no_mkdir st fs (path.getD default_download_dir) overwrite
    progress (normalize_ids requestIDs) ⟨results0.getD Results.fresh, [], [], []⟩ d
    (by simp)
  split
  · exact hfold
  · intro hmem
    rcases List.mem_append.mp hmem with hmem | hmem
    · exact hfold hmem
    · obtain ⟨url, _, hurl⟩ := List.mem_map.mp hmem
      exact absurd hurl (by simp)

/-- Claim C8 counterexample: the JSOC retrieve submits a download job while
its trace contains no directory-creation event at all — the destination
directory is not created before the transfer begins. -/
theorem C8_counterexample :
    JEvent.submitJob "http://jsoc.stanford.edu/SUM/D1/a.fits" ∈
      (get_request (fun _ => ⟨200, 0, "R9", "t", 0, "/SUM/D1", 5, [⟨"a.fits"⟩], ""⟩)
        (fun _ => false) (.single "R9") (some "/dest") false false none).events ∧
    ((get_request (fun _ => ⟨200, 0, "R9", "t", 0, "/SUM/D1", 5, [⟨"a.fits"⟩], ""⟩)
        (fun _ => false) (.single "R9") (some "/dest") false false none).events.all
      fun e => match e with
        | JEvent.mkdir _ => false
        | _ => true) = true :=
  ⟨by decide, by decide⟩

/-- Claim C8 (amended): in the Helioviewer file fetch the destination
directory is created idempotently before the transfer: a creation failure
with errno EEXIST proceeds as success (the transfer still happens), any
other OS-level creation failure aborts the operation before any transfer;
the JSOC `get_request`, by contrast, performs no directory creation before
submitting downloads. -/
theorem C8_mkdir_idempotent (mkdir : String → MkdirOutcome)
    (dl : Except String String) (directory : Option String) :
    (∀ e, mkdir (directory.getD default_download_dir) = .oserror e → e ≠ EEXIST →
      _get_file mkdir dl directory =
        (.error (.osError e), [.mkdirAttempt (directory.getD default_download_dir)])) ∧
    (mkdir (directory.getD default_download_dir) = .ok ∨
        mkdir (directory.getD default_download_dir) = .oserror EEXIST →
      _get_file mkdir dl directory =
        (hv_transfer dl, [.mkdirAttempt (directory.getD default_download_dir),
          .request, .transfer])) ∧
    (∀ (st : String → StatusResponse) (fs : String → Bool) (requestIDs : ReqIds)
      (path : Option String) (overwrite progress : Bool)
      (results0 : Option Results) (d : String),
      JEvent.mkdir d ∉
        (get_request st fs requestIDs path overwrite progress results0).events) := by
  refine ⟨?_, ?_, fun st fs r p ow pr r0 d => get_request_no_mkdir st fs r p ow pr r0 d⟩
  · intro e he hne
    unfold _get_file
    dsimp only
    rw [he]
    simp only []
    rw [if_pos hne]
  · intro h
    unfold _get_file
    dsimp only
    rcases h with h | h
    · rw [h]
    · rw [h]
      simp only []
      rw [if_neg (by simp)]

/-- Witness for C8: permission-denied (errno 13) aborts before any
transfer, while an already-existing directory (errno EEXIST) proceeds and
the file is downloaded. -/
theorem C8_mkdir_idempotent_witness :
    _get_file (fun _ => MkdirOutcome.oserror 13) (.ok "/dest/f.jp2") (some "/dest") =
      (.error (.osError 13), [.mkdirAttempt "/dest"]) ∧
    _get_file (fun _ => MkdirOutcome.oserror EEXIST) (.ok "/dest/f.jp2")
        (some "/dest") =
      (.ok "/dest/f.jp2", [.mkdirAttempt "/dest", .request, .transfer]) := by
  constructor
  · exact (C8_mkdir_idempotent (fun _ => MkdirOutcome.oserror 13) (.ok "/dest/f.jp2")
      (some "/dest")).1 13 rfl (by decide)
  · have h := (C8_mkdir_idempotent (fun _ => MkdirOutcome.oserror EEXIST)
      (.ok "/dest/f.jp2") (some "/dest")).2.1 (Or.inr rfl)
    rw [h]
    rfl
